import Mathlib

/-
Shallow embedding of the live audio streaming pipeline of the
vapi-webcall frontend (src/frontend/components/TwiloCall/page.tsx).

Samples are modelled as rationals, machine floats being replaced by exact
arithmetic; time values on the audio clock are rationals as well.  The
while-loop of processAudioQueue is modelled with an explicit fuel
parameter equal to the initial queue length, which is always sufficient
because every iteration removes at least one element.  Mutable refs of
the component become fields of an explicit state record, and each socket
or UI event handler becomes a state transition function.
-/

/-- One entry of audioQueueRef: decoded samples plus the Date.now stamp. -/
structure AudioQueueItem where
  data : List ℚ
  timestamp : ℤ
deriving DecidableEq

/-- The push at line 181 of page.tsx: append one chunk at the back. -/
def enqueue (chunk : AudioQueueItem) (q : List AudioQueueItem) : List AudioQueueItem :=
  q ++ [chunk]

/-- Lines 110 to 113 of processAudioQueue: when the queue length exceeds
50, keep only the 25 most recent entries (slice(-25)). -/
def evictIfNeeded (q : List AudioQueueItem) : List AudioQueueItem :=
  if 50 < q.length then q.drop (q.length - 25) else q

/-- validateAudioData (lines 44 to 65): reject empty buffers, odd byte
lengths, and frames shorter than 128 samples. -/
def validateAudioData (bs : List ℕ) : Bool :=
  if bs.length = 0 then false
  else if bs.length % 2 ≠ 0 then false
  else if bs.length / 2 < 128 then false
  else true

/-- Little-endian byte pair to signed 16-bit integer, as read by the
Int16Array view at line 159. -/
def int16OfBytesLE (lo hi : ℕ) : ℤ :=
  if lo + 256 * hi < 32768 then (lo + 256 * hi : ℤ) else (lo + 256 * hi : ℤ) - 65536

/-- The clamping at line 171: Math.max(-1, Math.min(1, x)). -/
def clamp (x : ℚ) : ℚ :=
  max (-1) (min 1 x)

/-- Group a byte list into little-endian pairs, one per 16-bit sample. -/
def bytePairs : List ℕ → List (ℕ × ℕ)
  | lo :: hi :: rest => (lo, hi) :: bytePairs rest
  | _ => []

/-- Lines 159 to 172: PCM bytes to normalized samples, sample by sample
clamp(int16 / 32768, -1, 1). -/
def decodePCM (bs : List ℕ) : List ℚ :=
  (bytePairs bs).map fun p => clamp ((int16OfBytesLE p.1 p.2 : ℚ) / 32768)

/-- The while loop of processAudioQueue (lines 77 to 119).  T is the
clock reading captured once at line 74, rate the context sample rate,
fuel an upper bound on the number of iterations, n the nextPlayTime
cursor.  Returns the scheduled (chunk, startTime) pairs, the final
cursor, and the final queue.  Chunks of fewer than 128 samples are
skipped; after a successfully scheduled chunk the overflow eviction of
lines 110 to 113 is applied to the remaining queue. -/
def drainAux (T rate : ℚ) : ℕ → ℚ → List AudioQueueItem → List (AudioQueueItem × ℚ) × ℚ × List AudioQueueItem
  | 0, n, q => ([], n, q)
  | _ + 1, n, [] => ([], n, [])
  | fuel + 1, n, item :: rest =>
    if item.data.length = 0 then
      drainAux T rate fuel n rest
    else if item.data.length < 128 then
      drainAux T rate fuel n rest
    else
      ((item, max T n) ::
          (drainAux T rate fuel (max T n + (item.data.length : ℚ) / rate) (evictIfNeeded rest)).1,
        (drainAux T rate fuel (max T n + (item.data.length : ℚ) / rate) (evictIfNeeded rest)).2)

/-- The drain with its canonical fuel: one unit per initially queued
chunk, which is always enough because every iteration pops one chunk and
eviction only shrinks the queue. -/
def drainLoop (T rate n : ℚ) (q : List AudioQueueItem) : List (AudioQueueItem × ℚ) × ℚ × List AudioQueueItem :=
  drainAux T rate q.length n q

/-- The mutable state of the component: React state, refs, and two
instrumentation fields (closeCode records the code of the last explicit
socket close, socketsCreated counts WebSocket constructions). -/
structure AppState where
  callStatus : String
  listenStatus : String
  callStatusLog : List String
  wsOpen : Bool
  wsUrl : String
  reconnectTimeout : Option ℕ
  queue : List AudioQueueItem
  nextPlayTime : ℚ
  ctxRunning : Bool
  isPlaying : Bool
  closeCode : Option ℕ
  socketsCreated : ℕ

/-- setCallStatus, with a log of every value ever set so that transient
states remain observable. -/
def setCallStatus (st : String) (s : AppState) : AppState :=
  { s with callStatus := st, callStatusLog := s.callStatusLog ++ [st] }

/-- connectWebSocket (lines 123 to 232): retain the endpoint in
wsUrlRef, construct a socket and store it in the ws state. -/
def connectWebSocket (url : String) (s : AppState) : AppState :=
  { s with wsUrl := url, wsOpen := true, socketsCreated := s.socketsCreated + 1 }

/-- socket.onopen (lines 129 to 140): set Listening, init the audio
clock, clear a pending reconnect timer. -/
def onOpen (clockTime : ℚ) (s : AppState) : AppState :=
  { s with listenStatus := "Listening...", isPlaying := true, ctxRunning := true,
           nextPlayTime := clockTime, reconnectTimeout := none }

/-- socket.onclose (lines 209 to 223): on a close code other than 1000
and 1001 while an endpoint is retained, schedule one reconnect after
2000 milliseconds. -/
def onClose (code : ℕ) (s : AppState) : AppState :=
  if code ≠ 1000 ∧ code ≠ 1001 ∧ s.wsUrl ≠ "" then
    { s with listenStatus := "Reconnecting...", isPlaying := false, reconnectTimeout := some 2000 }
  else
    { s with listenStatus := "Connection closed", isPlaying := false }

/-- The reconnect timer callback (lines 219 to 221): if a timer is
pending it fires once, consuming itself and reconnecting to the
retained endpoint; a cancelled or absent timer does nothing. -/
def fireReconnectTimer (s : AppState) : AppState :=
  match s.reconnectTimeout with
  | some _ => connectWebSocket s.wsUrl { s with reconnectTimeout := none }
  | none => s

/-- stopListening (lines 262 to 288): cancel the pending reconnect,
close the socket with code 1000 when one exists, flush the queue, close
the audio context, reset statuses and the retained endpoint. -/
def stopListening (s : AppState) : AppState :=
  { setCallStatus "Idle" s with
      reconnectTimeout := none,
      closeCode := if s.wsOpen then some 1000 else s.closeCode,
      wsOpen := false,
      queue := [],
      ctxRunning := false,
      listenStatus := "Stopped",
      isPlaying := false,
      wsUrl := "" }

/-- The stopListening closure that socket.onmessage actually invokes.
connectWebSocket is memoized with dependencies that never change, so
every handler it installs forever references the first-render
stopListening, whose captured ws state is null.  The guard at line 270
therefore fails: neither ws.close(1000) nor setWs(null) runs, so
closeCode and wsOpen are left untouched, while the ref-backed and
setter-backed effects (timer clear, queue flush, audio context close,
statuses, endpoint reset) still occur. -/
def stopListeningStale (s : AppState) : AppState :=
  { setCallStatus "Idle" s with
      reconnectTimeout := none,
      queue := [],
      ctxRunning := false,
      listenStatus := "Stopped",
      isPlaying := false,
      wsUrl := "" }

/-- The JSON branch of socket.onmessage (lines 189 to 203).  The input
is the parsed type field: none for a parse failure, some t for a parsed
message of type t.  Only call-ended triggers teardown, through the
stale first-render stopListening closure. -/
def onTextMessage (parsed : Option String) (s : AppState) : AppState :=
  match parsed with
  | some t => if t = "call-ended" then stopListeningStale (setCallStatus "Call ended" s) else s
  | none => s

/-- processAudioQueue (lines 70 to 120) acting on the component state:
early return without an audio context or with an empty queue, otherwise
run the drain loop and store the final queue and cursor. -/
def processAudioQueue (clockTime rate : ℚ) (s : AppState) : AppState × List (AudioQueueItem × ℚ) :=
  if s.ctxRunning = false ∨ s.queue.length = 0 then (s, [])
  else
    ({ s with queue := (drainLoop clockTime rate s.nextPlayTime s.queue).2.2,
              nextPlayTime := (drainLoop clockTime rate s.nextPlayTime s.queue).2.1 },
      (drainLoop clockTime rate s.nextPlayTime s.queue).1)

/-- The binary branch of socket.onmessage (lines 142 to 188): guard on
the audio context, validate, decode, enqueue, then drain. -/
def onBinaryMessage (clockTime rate : ℚ) (frame : List ℕ) (now : ℤ) (s : AppState) :
    AppState × List (AudioQueueItem × ℚ) :=
  if s.ctxRunning = false then (s, [])
  else if validateAudioData frame = false then (s, [])
  else if frame.length = 0 then (s, [])
  else if (decodePCM frame).length = 0 then (s, [])
  else
    processAudioQueue clockTime rate { s with queue := enqueue ⟨decodePCM frame, now⟩ s.queue }

/-- The response of the call origination service (section 6 of the
spec), as consumed by startCall (lines 234 to 260). -/
structure OriginationResponse where
  ok : Bool
  status : ℕ
  errorMsg : String
  listenUrl : String
  callId : String

/-- startCall: on a non-ok response or a missing listenUrl, set the
failure status and open no socket; otherwise connect. -/
def startCall (resp : OriginationResponse) (s : AppState) : AppState :=
  if resp.ok = false then
    setCallStatus
      ("Call failed: " ++ (if resp.errorMsg = "" then "HTTP " ++ toString resp.status else resp.errorMsg))
      (setCallStatus "Starting call..." s)
  else if resp.listenUrl = "" then
    setCallStatus ("Call failed: " ++ "Listen URL not received") (setCallStatus "Starting call..." s)
  else
    setCallStatus "Call in progress..."
      (connectWebSocket resp.listenUrl (setCallStatus "Starting call..." s))

/-- A 128-sample silent chunk, the smallest size accepted by the
pipeline, used as a concrete input. -/
def mkChunk (k : ℤ) : AudioQueueItem :=
  ⟨List.replicate 128 0, k⟩

/-- A concrete queue of 51 distinct zero-sample chunks. -/
def bigQ : List AudioQueueItem :=
  (List.range 51).map fun i => ⟨[], (i : ℤ)⟩

/-- A concrete state in the Listening phase. -/
def sampleListeningState : AppState :=
  { callStatus := "Call in progress...", listenStatus := "Listening...",
    callStatusLog := [], wsOpen := true, wsUrl := "wss://example", reconnectTimeout := none,
    queue := [], nextPlayTime := 0, ctxRunning := true, isPlaying := true,
    closeCode := none, socketsCreated := 1 }

/-- A concrete idle state. -/
def idleState : AppState :=
  { callStatus := "Idle", listenStatus := "Not listening",
    callStatusLog := [], wsOpen := false, wsUrl := "", reconnectTimeout := none,
    queue := [], nextPlayTime := 0, ctxRunning := false, isPlaying := false,
    closeCode := none, socketsCreated := 0 }

/-- A nominally successful origination response with an empty listenUrl. -/
def emptyUrlResp : OriginationResponse :=
  { ok := true, status := 200, errorMsg := "", listenUrl := "", callId := "call-123" }

/-- The clamp of line 171 always lands in the interval [-1, 1]. -/
theorem clamp_bounds (z : ℚ) : -1 ≤ clamp z ∧ clamp z ≤ 1 :=
  ⟨le_max_left _ _, max_le (by norm_num) (min_le_left _ _)⟩

/-- On an even number of bytes, pairing produces one pair per two bytes. -/
theorem bytePairs_length : ∀ bs : List ℕ, bs.length % 2 = 0 → (bytePairs bs).length = bs.length / 2
  | [], _ => by simp [bytePairs]
  | [x], h => by simp at h
  | x :: y :: rest, h => by
    have hrest : rest.length % 2 = 0 := by simp [List.length_cons] at h; omega
    have ih := bytePairs_length rest hrest
    simp only [bytePairs, List.length_cons, ih]
    omega

/-- A frame accepted by validateAudioData has an even byte length. -/
theorem validate_true_even (bs : List ℕ) (h : validateAudioData bs = true) : bs.length % 2 = 0 := by
  unfold validateAudioData at h
  split_ifs at h with h1 h2 h3
  omega

/-- The drain loop on an empty queue returns the cursor unchanged. -/
theorem drainAux_nil (T rate : ℚ) (fuel : ℕ) (n : ℚ) : drainAux T rate fuel n [] = ([], n, []) := by
  cases fuel <;> rfl

/-- Eviction never lengthens the queue. -/
theorem evict_length_le (q : List AudioQueueItem) : (evictIfNeeded q).length ≤ q.length := by
  unfold evictIfNeeded
  split
  · simp
  · exact le_rfl

/-- Eviction keeps a suffix, hence a sublist, of the queue. -/
theorem evict_sublist (q : List AudioQueueItem) : List.Sublist (evictIfNeeded q) q := by
  unfold evictIfNeeded
  split
  · exact List.drop_sublist _ _
  · exact List.Sublist.refl q

/-- Eviction is the identity while the queue is within its bound. -/
theorem evict_of_le (q : List AudioQueueItem) (h : q.length ≤ 50) : evictIfNeeded q = q := by
  unfold evictIfNeeded
  rw [if_neg]
  omega

/-- With fuel at least the queue length, the drain loop consumes the
whole queue: the final queue is empty. -/
theorem drainAux_final_queue (T rate : ℚ) (fuel : ℕ) :
    ∀ (q : List AudioQueueItem) (n : ℚ), q.length ≤ fuel → (drainAux T rate fuel n q).2.2 = [] := by
  induction fuel with
  | zero =>
    intro q n h
    have hq : q = [] := List.eq_nil_of_length_eq_zero (Nat.le_zero.mp h)
    subst hq
    rfl
  | succ f ih =>
    intro q n h
    cases q with
    | nil => rfl
    | cons c rest =>
      have hr : rest.length ≤ f := by simp [List.length_cons] at h; omega
      by_cases h0 : c.data.length = 0
      · simpa [drainAux, h0] using ih rest n hr
      · by_cases h1 : c.data.length < 128
        · simpa [drainAux, h0, h1] using ih rest n hr
        · simp only [drainAux, if_neg h0, if_neg h1]
          exact ih (evictIfNeeded rest) _ (le_trans (evict_length_le rest) hr)

/-- Every start time produced by the drain loop is at least the cursor
it started from: the cursor only moves forward. -/
theorem drainAux_mem_le (T rate : ℚ) (hrate : 0 < rate) (fuel : ℕ) :
    ∀ (q : List AudioQueueItem) (n : ℚ) (p : AudioQueueItem × ℚ),
      p ∈ (drainAux T rate fuel n q).1 → n ≤ p.2 := by
  induction fuel with
  | zero => intro q n p hp; simp [drainAux] at hp
  | succ f ih =>
    intro q n p hp
    cases q with
    | nil => simp [drainAux] at hp
    | cons c rest =>
      by_cases h0 : c.data.length = 0
      · exact ih rest n p (by simpa [drainAux, h0] using hp)
      · by_cases h1 : c.data.length < 128
        · exact ih rest n p (by simpa [drainAux, h0, h1] using hp)
        · simp only [drainAux, if_neg h0, if_neg h1, List.mem_cons] at hp
          rcases hp with hp | hp
          · subst hp
            exact le_max_right T n
          · have hd : (0 : ℚ) ≤ (c.data.length : ℚ) / rate :=
              div_nonneg (by positivity) hrate.le
            have h2 := ih (evictIfNeeded rest) (max T n + (c.data.length : ℚ) / rate) p hp
            calc n ≤ max T n := le_max_right T n
              _ ≤ max T n + (c.data.length : ℚ) / rate := le_add_of_nonneg_right hd
              _ ≤ p.2 := h2

/-- Start times are scheduled in non-decreasing order. -/
theorem drainAux_pairwise (T rate : ℚ) (hrate : 0 < rate) (fuel : ℕ) :
    ∀ (q : List AudioQueueItem) (n : ℚ),
      ((drainAux T rate fuel n q).1).Pairwise (fun a b => a.2 ≤ b.2) := by
  induction fuel with
  | zero => intro q n; simp [drainAux]
  | succ f ih =>
    intro q n
    cases q with
    | nil => simp [drainAux]
    | cons c rest =>
      by_cases h0 : c.data.length = 0
      · simpa [drainAux, h0] using ih rest n
      · by_cases h1 : c.data.length < 128
        · simpa [drainAux, h0, h1] using ih rest n
        · simp only [drainAux, if_neg h0, if_neg h1]
          refine List.pairwise_cons.mpr ⟨?_, ih _ _⟩
          intro p hp
          have hd : (0 : ℚ) ≤ (c.data.length : ℚ) / rate :=
            div_nonneg (by positivity) hrate.le
          have h2 := drainAux_mem_le T rate hrate f (evictIfNeeded rest) _ p hp
          calc (c, max T n).2 = max T n := rfl
            _ ≤ max T n + (c.data.length : ℚ) / rate := le_add_of_nonneg_right hd
            _ ≤ p.2 := h2

/-- Scheduled chunks form a sublist of the queue: delivery order is
never permuted, only thinned by skips and eviction. -/
theorem drainAux_sublist_fst (T rate : ℚ) (fuel : ℕ) :
    ∀ (q : List AudioQueueItem) (n : ℚ),
      List.Sublist ((drainAux T rate fuel n q).1.map Prod.fst) q := by
  induction fuel with
  | zero => intro q n; simp [drainAux]
  | succ f ih =>
    intro q n
    cases q with
    | nil => simp [drainAux]
    | cons c rest =>
      by_cases h0 : c.data.length = 0
      · exact List.Sublist.cons c (by simpa [drainAux, h0] using ih rest n)
      · by_cases h1 : c.data.length < 128
        · exact List.Sublist.cons c (by simpa [drainAux, h0, h1] using ih rest n)
        · simp only [drainAux, if_neg h0, if_neg h1, List.map_cons]
          exact List.Sublist.cons₂ c ((ih (evictIfNeeded rest) _).trans (evict_sublist rest))

/-- On a queue of at most 50 chunks all of valid size, the drain loop
schedules every chunk, in queue order. -/
theorem drainAux_map_fst (T rate : ℚ) (fuel : ℕ) :
    ∀ (q : List AudioQueueItem) (n : ℚ), q.length ≤ fuel → q.length ≤ 50 →
      (∀ ch ∈ q, 128 ≤ ch.data.length) →
      (drainAux T rate fuel n q).1.map Prod.fst = q := by
  induction fuel with
  | zero =>
    intro q n hf _ _
    have hq : q = [] := List.eq_nil_of_length_eq_zero (Nat.le_zero.mp hf)
    subst hq
    simp [drainAux]
  | succ f ih =>
    intro q n hf h50 hval
    cases q with
    | nil => simp [drainAux]
    | cons c rest =>
      have hc : 128 ≤ c.data.length := hval c (List.mem_cons_self c rest)
      have h0 : ¬c.data.length = 0 := by omega
      have h1 : ¬c.data.length < 128 := by omega
      have hev : evictIfNeeded rest = rest := by
        apply evict_of_le
        simp [List.length_cons] at h50
        omega
      simp only [drainAux, if_neg h0, if_neg h1, hev, List.map_cons]
      rw [ih rest _ (by simp [List.length_cons] at hf; omega)
        (by simp [List.length_cons] at h50; omega)
        (fun ch hch => hval ch (List.mem_cons_of_mem c hch))]

/-- On a nonempty queue of at most 50 valid chunks, the final cursor is
max(clock, initial cursor) plus the total duration of the queue. -/
theorem drainAux_cursor (T rate : ℚ) (hrate : 0 < rate) (fuel : ℕ) :
    ∀ (q : List AudioQueueItem) (n : ℚ), q.length ≤ fuel → q.length ≤ 50 →
      (∀ ch ∈ q, 128 ≤ ch.data.length) → q ≠ [] →
      (drainAux T rate fuel n q).2.1 =
        max T n + (q.map fun ch => (ch.data.length : ℚ) / rate).sum := by
  induction fuel with
  | zero =>
    intro q n hf _ _ hne
    exact absurd (List.eq_nil_of_length_eq_zero (Nat.le_zero.mp hf)) hne
  | succ f ih =>
    intro q n hf h50 hval hne
    cases q with
    | nil => exact absurd rfl hne
    | cons c rest =>
      have hc : 128 ≤ c.data.length := hval c (List.mem_cons_self c rest)
      have h0 : ¬c.data.length = 0 := by omega
      have h1 : ¬c.data.length < 128 := by omega
      have hev : evictIfNeeded rest = rest := by
        apply evict_of_le
        simp [List.length_cons] at h50
        omega
      simp only [drainAux, if_neg h0, if_neg h1, hev, List.map_cons, List.sum_cons]
      cases rest with
      | nil =>
        rw [drainAux_nil]
        simp
      | cons c2 rest2 =>
        have hT : T ≤ max T n + (c.data.length : ℚ) / rate :=
          le_trans (le_max_left T n)
            (le_add_of_nonneg_right (div_nonneg (by positivity) hrate.le))
        rw [ih (c2 :: rest2) _ (by simp [List.length_cons] at hf ⊢; omega)
          (by simp [List.length_cons] at h50 ⊢; omega)
          (fun ch hch => hval ch (List.mem_cons_of_mem c hch)) (by simp)]
        rw [max_eq_right hT]
        ring

/-- With the audio context running, processAudioQueue leaves an empty
queue behind. -/
theorem processAudioQueue_empties (clockTime rate : ℚ) (s : AppState) (hctx : s.ctxRunning = true) :
    (processAudioQueue clockTime rate s).1.queue = [] := by
  unfold processAudioQueue
  by_cases hq : s.queue.length = 0
  · simp only [hctx, hq]
    simp [List.eq_nil_of_length_eq_zero hq]
  · simp only [hctx, hq]
    simp only [Bool.true_eq_false, false_or, if_neg hq]
    exact drainAux_final_queue clockTime rate s.queue.length s.queue s.nextPlayTime le_rfl

/-- Pushing chunks one by one with enqueue is the same as appending the
whole batch. -/
theorem foldl_enqueue (l acc : List AudioQueueItem) :
    l.foldl (fun q chunk => enqueue chunk q) acc = acc ++ l := by
  induction l generalizing acc with
  | nil => simp
  | cons c rest ih =>
    rw [List.foldl_cons, ih]
    simp [enqueue]

/-- C1 counterexample: the enqueue operation of the code (the push at
line 181) performs no eviction, so a sequence of 51 enqueue operations
starting from the empty queue leaves 51 chunks in the queue, exceeding
50 immediately after the last enqueue; the claim that the length never
exceeds 50 immediately after any enqueue is false of enqueue itself. -/
theorem c1_counterexample :
    50 < ((List.replicate 51 (mkChunk 0)).foldl (fun q chunk => enqueue chunk q) []).length := by
  rw [foldl_enqueue]
  simp

/-- C1 amended: the queue bound is enforced inside the drain loop, not
by enqueue; whenever the queue length exceeds 50 there, the queue is
truncated to exactly its 25 most recently enqueued chunks, the oldest
being dropped. -/
theorem c1_amended_eviction (q : List AudioQueueItem) (h : 50 < q.length) :
    (evictIfNeeded q).length = 25 ∧ evictIfNeeded q = q.drop (q.length - 25) := by
  unfold evictIfNeeded
  rw [if_pos h]
  refine ⟨?_, rfl⟩
  rw [List.length_drop]
  omega

set_option maxRecDepth 4000 in
/-- C1 witness: eviction on a concrete queue of 51 chunks keeps exactly
the 25 most recent. -/
theorem c1_amended_eviction_witness :
    50 < bigQ.length ∧ (evictIfNeeded bigQ).length = 25 ∧
      evictIfNeeded bigQ = bigQ.drop (bigQ.length - 25) :=
  ⟨by decide, (c1_amended_eviction bigQ (by decide)).1, (c1_amended_eviction bigQ (by decide)).2⟩

set_option maxRecDepth 4000 in
/-- C2 counterexample: with the clock at 0, the cursor at 10 and one
128-sample chunk at rate 16000, the code leaves the cursor at
10 + 128/16000, not at clock + duration = 0 + 128/16000 as the claim
states; the difference of 10 is far beyond floating-point tolerance. -/
theorem c2_counterexample :
    ¬(drainLoop 0 16000 10 [mkChunk 0]).2.1 = 0 + (128 : ℚ) / 16000 := by
  have h := drainAux_cursor 0 16000 (by norm_num) 1 [mkChunk 0] 10
    (by decide) (by decide) (by decide) (by decide)
  unfold drainLoop
  rw [show List.length [mkChunk 0] = 1 from rfl, h, max_eq_right (by norm_num : (0 : ℚ) ≤ 10)]
  simp only [List.map_cons, List.map_nil, List.sum_cons, List.sum_nil, mkChunk,
    List.length_replicate]
  norm_num

/-- C2 amended: draining a nonempty queue of at most 50 valid chunks
leaves NextPlayTime at max(clock time at first drain, NextPlayTime
before the drain) plus the sum of the chunk durations; when the initial
NextPlayTime does not exceed the clock, this equals the clock time at
the first drain plus the sum of durations, each chunk having been
scheduled at max(clock time, cursor). -/
theorem c2_drain_cursor (T rate n : ℚ) (q : List AudioQueueItem) (hrate : 0 < rate)
    (hlen : q.length ≤ 50) (hval : ∀ ch ∈ q, 128 ≤ ch.data.length) (hne : q ≠ []) :
    (drainLoop T rate n q).2.1 = max T n + (q.map fun ch => (ch.data.length : ℚ) / rate).sum ∧
    (n ≤ T → (drainLoop T rate n q).2.1 = T + (q.map fun ch => (ch.data.length : ℚ) / rate).sum) := by
  have h := drainAux_cursor T rate hrate q.length q n le_rfl hlen hval hne
  unfold drainLoop
  refine ⟨h, fun hT => ?_⟩
  rw [h, max_eq_left hT]

set_option maxRecDepth 4000 in
/-- C2 witness: one 128-sample chunk drained at clock 5 with cursor 0
advances the cursor to max 5 0 plus its duration. -/
theorem c2_drain_cursor_witness :
    (0 : ℚ) < 16000 ∧
    (drainLoop 5 16000 0 [mkChunk 0]).2.1 =
      max 5 0 + (([mkChunk 0]).map fun ch => (ch.data.length : ℚ) / 16000).sum :=
  ⟨by norm_num,
    (c2_drain_cursor 5 16000 0 [mkChunk 0] (by norm_num) (by decide) (by decide) (by decide)).1⟩

/-- C3: for every frame accepted by the validator, decoding yields
byteLength / 2 samples, all within [-1, 1]; and the 4-byte frame with
little-endian int16 values 16384 and -16384 decodes to 1/2 and -1/2. -/
theorem c3_decode_spec :
    (∀ bs : List ℕ, validateAudioData bs = true →
      (decodePCM bs).length = bs.length / 2 ∧ ∀ x ∈ decodePCM bs, -1 ≤ x ∧ x ≤ 1) ∧
    decodePCM [0, 64, 0, 192] = [1/2, -1/2] := by
  constructor
  · intro bs hv
    constructor
    · simpa [decodePCM] using bytePairs_length bs (validate_true_even bs hv)
    · intro x hx
      simp only [decodePCM, List.mem_map] at hx
      obtain ⟨p, hp, hpx⟩ := hx
      rw [← hpx]
      exact clamp_bounds _
  · have e1 : int16OfBytesLE 0 64 = 16384 := by decide
    have e2 : int16OfBytesLE 0 192 = -16384 := by decide
    simp only [decodePCM, bytePairs, List.map_cons, List.map_nil, e1, e2]
    norm_num [clamp, min_def, max_def]

set_option maxRecDepth 4000 in
/-- C3 witness: a 256-byte zero frame passes validation and decodes to
128 samples. -/
theorem c3_decode_spec_witness :
    validateAudioData (List.replicate 256 0) = true ∧
    (decodePCM (List.replicate 256 0)).length = (List.replicate 256 (0 : ℕ)).length / 2 :=
  ⟨by decide, (c3_decode_spec.1 (List.replicate 256 0) (by decide)).1⟩

/-- C4: validateAudioData returns false exactly for an empty buffer, an
odd byte length, or fewer than 128 samples, and returns true otherwise;
as a total function it never throws. -/
theorem c4_validate_iff (bs : List ℕ) :
    validateAudioData bs = false ↔
      (bs.length = 0 ∨ bs.length % 2 ≠ 0 ∨ bs.length / 2 < 128) := by
  unfold validateAudioData
  split_ifs with h1 h2 h3 <;> simp_all

/-- C5: after a close with a code other than 1000 and 1001 while an
endpoint is retained, a reconnect timer of 2000 milliseconds is pending;
firing it performs exactly one reconnect attempt, firing again performs
no further attempt, and a stop issued before the timer fires cancels it
so that zero attempts occur. -/
theorem c5_reconnect_once (s : AppState) (c : ℕ)
    (hurl : s.wsUrl ≠ "") (h1 : c ≠ 1000) (h2 : c ≠ 1001) :
    (onClose c s).reconnectTimeout = some 2000 ∧
    (fireReconnectTimer (onClose c s)).socketsCreated = s.socketsCreated + 1 ∧
    (fireReconnectTimer (fireReconnectTimer (onClose c s))).socketsCreated = s.socketsCreated + 1 ∧
    (fireReconnectTimer (stopListening (onClose c s))).socketsCreated = s.socketsCreated := by
  have hcond : c ≠ 1000 ∧ c ≠ 1001 ∧ s.wsUrl ≠ "" := ⟨h1, h2, hurl⟩
  simp [onClose, if_pos hcond, fireReconnectTimer, connectWebSocket, stopListening, setCallStatus]

/-- C5 witness: code 1006 on a concrete listening state schedules the
2-second timer, firing it reconnects exactly once, and a stop first
yields zero attempts. -/
theorem c5_reconnect_once_witness :
    sampleListeningState.wsUrl ≠ "" ∧
    (onClose 1006 sampleListeningState).reconnectTimeout = some 2000 ∧
    (fireReconnectTimer (onClose 1006 sampleListeningState)).socketsCreated =
      sampleListeningState.socketsCreated + 1 ∧
    (fireReconnectTimer (fireReconnectTimer (onClose 1006 sampleListeningState))).socketsCreated =
      sampleListeningState.socketsCreated + 1 ∧
    (fireReconnectTimer (stopListening (onClose 1006 sampleListeningState))).socketsCreated =
      sampleListeningState.socketsCreated :=
  ⟨by decide,
    (c5_reconnect_once sampleListeningState 1006 (by decide) (by decide) (by decide)).1,
    (c5_reconnect_once sampleListeningState 1006 (by decide) (by decide) (by decide)).2.1,
    (c5_reconnect_once sampleListeningState 1006 (by decide) (by decide) (by decide)).2.2.1,
    (c5_reconnect_once sampleListeningState 1006 (by decide) (by decide) (by decide)).2.2.2⟩

/-- C6: a nominally successful origination response with an empty
listenUrl moves the session to the failure status with reason Listen URL
not received, and no socket is created: the socket count, the ws state
and the retained endpoint are unchanged. -/
theorem c6_missing_listen_url (s : AppState) (resp : OriginationResponse)
    (hok : resp.ok = true) (hurl : resp.listenUrl = "") :
    (startCall resp s).callStatus = "Call failed: Listen URL not received" ∧
    (startCall resp s).socketsCreated = s.socketsCreated ∧
    (startCall resp s).wsOpen = s.wsOpen ∧
    (startCall resp s).wsUrl = s.wsUrl := by
  simp [startCall, setCallStatus, hok, hurl]

/-- C6 witness: the concrete empty-listenUrl response on the idle state
fails with the expected reason and opens nothing. -/
theorem c6_missing_listen_url_witness :
    emptyUrlResp.ok = true ∧ emptyUrlResp.listenUrl = "" ∧
    (startCall emptyUrlResp idleState).callStatus = "Call failed: Listen URL not received" ∧
    (startCall emptyUrlResp idleState).socketsCreated = idleState.socketsCreated ∧
    (startCall emptyUrlResp idleState).wsOpen = idleState.wsOpen ∧
    (startCall emptyUrlResp idleState).wsUrl = idleState.wsUrl :=
  ⟨rfl, rfl,
    (c6_missing_listen_url idleState emptyUrlResp rfl rfl).1,
    (c6_missing_listen_url idleState emptyUrlResp rfl rfl).2.1,
    (c6_missing_listen_url idleState emptyUrlResp rfl rfl).2.2.1,
    (c6_missing_listen_url idleState emptyUrlResp rfl rfl).2.2.2⟩

/-- C7: on a call-ended control frame the code does flush the playback
queue, drop the endpoint and pass through the Call ended status, but it
never closes the socket: the onmessage handler runs the stale
first-render stopListening whose captured ws is null, so no close with
code 1000 is issued and the ws state is left as it was.  The claimed
normal-closure close is the intent of the stopListening source but does
not execute on this path. -/
theorem c7_call_ended_no_close (s : AppState) :
    "Call ended" ∈ (onTextMessage (some "call-ended") s).callStatusLog ∧
    (onTextMessage (some "call-ended") s).queue = [] ∧
    (onTextMessage (some "call-ended") s).wsUrl = "" ∧
    (onTextMessage (some "call-ended") s).closeCode = s.closeCode ∧
    (onTextMessage (some "call-ended") s).wsOpen = s.wsOpen := by
  simp [onTextMessage, stopListeningStale, setCallStatus]

/-- C8: the drain never permutes chunks: the scheduled chunks are a
sublist of the queue, their start times are non-decreasing, and three
valid chunks enqueued as A, B, C are scheduled exactly as A, B, C
whatever the clock, the cursor or the arrival stamps. -/
theorem c8_fifo_order (T rate n : ℚ) (q : List AudioQueueItem) (hrate : 0 < rate) :
    List.Sublist ((drainLoop T rate n q).1.map Prod.fst) q ∧
    ((drainLoop T rate n q).1).Pairwise (fun a b => a.2 ≤ b.2) ∧
    (∀ A B C : AudioQueueItem, 128 ≤ A.data.length → 128 ≤ B.data.length →
      128 ≤ C.data.length → (drainLoop T rate n [A, B, C]).1.map Prod.fst = [A, B, C]) := by
  refine ⟨drainAux_sublist_fst T rate q.length q n,
    drainAux_pairwise T rate hrate q.length q n, ?_⟩
  intro A B C hA hB hC
  exact drainAux_map_fst T rate 3 [A, B, C] n (by simp) (by simp)
    (by intro ch hch; simp [List.mem_cons] at hch; rcases hch with h | h | h <;> subst h <;> assumption)

set_option maxRecDepth 4000 in
/-- C8 witness: three concrete 128-sample chunks drain in order. -/
theorem c8_fifo_order_witness :
    (0 : ℚ) < 16000 ∧
    (drainLoop 0 16000 0 [mkChunk 0, mkChunk 1, mkChunk 2]).1.map Prod.fst =
      [mkChunk 0, mkChunk 1, mkChunk 2] :=
  ⟨by norm_num,
    (c8_fifo_order 0 16000 0 [mkChunk 0, mkChunk 1, mkChunk 2] (by norm_num)).2.2
      (mkChunk 0) (mkChunk 1) (mkChunk 2) (by decide) (by decide) (by decide)⟩

/-- C9: with the audio context running, the drain leaves the queue
empty on return, skipped chunks included; and a complete binary-message
step starting from an empty queue ends with an empty queue, so the
queue is nonempty only between the push and the drain of one handler. -/
theorem c9_drain_empties_queue (clockTime rate : ℚ) (s : AppState) (hctx : s.ctxRunning = true) :
    (processAudioQueue clockTime rate s).1.queue = [] ∧
    (∀ frame now, s.queue = [] → (onBinaryMessage clockTime rate frame now s).1.queue = []) := by
  refine ⟨processAudioQueue_empties clockTime rate s hctx, ?_⟩
  intro frame now hq
  unfold onBinaryMessage
  split_ifs with hA hB hC hD
  · exact hq
  · exact hq
  · exact hq
  · exact hq
  · exact processAudioQueue_empties clockTime rate _ (by simpa using hctx)

set_option maxRecDepth 4000 in
/-- C9 witness: the drain on the concrete listening state returns an
empty queue, and a binary frame handled from an empty queue leaves it
empty. -/
theorem c9_drain_empties_queue_witness :
    sampleListeningState.ctxRunning = true ∧
    (processAudioQueue 0 16000 sampleListeningState).1.queue = [] ∧
    (onBinaryMessage 0 16000 (List.replicate 256 0) 0 sampleListeningState).1.queue = [] :=
  ⟨rfl,
    (c9_drain_empties_queue 0 16000 sampleListeningState rfl).1,
    (c9_drain_empties_queue 0 16000 sampleListeningState rfl).2 (List.replicate 256 0) 0 rfl⟩

/-- C10: an explicit stop resets the retained endpoint to the empty
string and cancels the pending reconnect timer, and any close event of
any code delivered after the stop schedules no reconnect and, even if a
timer callback ran, would create no socket. -/
theorem c10_stop_clears_endpoint (s : AppState) (c : ℕ) :
    (stopListening s).wsUrl = "" ∧
    (stopListening s).reconnectTimeout = none ∧
    (onClose c (stopListening s)).reconnectTimeout = none ∧
    (fireReconnectTimer (onClose c (stopListening s))).socketsCreated = s.socketsCreated := by
  refine ⟨rfl, rfl, ?_, ?_⟩
  · simp [onClose, stopListening, setCallStatus]
  · simp [onClose, stopListening, setCallStatus, fireReconnectTimer]
